import Mathlib

/-!
Verification of the alsa-lib dsnoop plugin core (`src/pcm/pcm_dsnoop.c`):
the per-client pointer-synchronization engine, overrun detection, and the
capture state machine, embedded shallowly in Lean.

Machine integers: `snd_pcm_uframes_t` is a 64-bit unsigned integer and
`snd_pcm_sframes_t` its signed counterpart; we model unsigned values as `Nat`
reduced modulo `2 ^ 64` where C arithmetic can wrap, and the conversion to the
signed type as `toSframes` (two's-complement reinterpretation).

External collaborators (timer, semaphore, sample-area copies, `gettimeofday`)
either have no effect on the modelled state or are passed in as explicit
inputs (the owner's hardware cursor value read from shared memory, and the
wall-clock time).
-/

namespace Dsnoop

/-- Linux error number `EPIPE` (broken pipe / overrun). -/
def EPIPE : Int := 32

/-- Linux error number `EBADFD` (file descriptor in bad state). -/
def EBADFD : Int := 77

/-- Linux error number `ENODEV` (no such device). -/
def ENODEV : Int := 19

/-- Linux error number `EAGAIN` (try again). -/
def EAGAIN : Int := 11

/-- Reinterpret a 64-bit unsigned value as the signed `snd_pcm_sframes_t`
obtained in C when it is assigned to a signed variable (two's complement). -/
def toSframes (n : Nat) : Int :=
  if n < 2 ^ 63 then (n : Int) else (n : Int) - 2 ^ 64

/-- C unsigned 64-bit subtraction `a - b` (wraps modulo `2 ^ 64`);
both operands are values of `snd_pcm_uframes_t`, hence below `2 ^ 64`. -/
def usub64 (a b : Nat) : Nat :=
  (a % 2 ^ 64 + 2 ^ 64 - b % 2 ^ 64) % 2 ^ 64

/-- `snd_pcm_state_t`: the capture state machine's states
(`SND_PCM_STATE_*` of the ALSA API). -/
inductive snd_pcm_state_t where
  | OPEN
  | SETUP
  | PREPARED
  | RUNNING
  | XRUN
  | DRAINING
  | PAUSED
  | SUSPENDED
  | DISCONNECTED
deriving DecidableEq, Repr

/-- The fields of the client's `snd_pcm_t` that the dsnoop code reads:
software parameters and the per-stream constants fixed at setup time.
`nonblock` models the `SND_PCM_NONBLOCK` bit of `pcm->mode`. -/
structure snd_pcm_t where
  boundary : Nat
  buffer_size : Nat
  period_size : Nat
  stop_threshold : Nat
  nonblock : Bool
deriving DecidableEq, Repr

/-- The slave (owner-side) parameters stored in the shared segment
(`dsnoop->shmptr->s`): the owner ring's capacity and boundary. -/
structure slave_shm_t where
  boundary : Nat
  buffer_size : Nat
deriving DecidableEq, Repr

/-- `snd_htimestamp_t`: seconds and nanoseconds, as stored in
`dsnoop->trigger_tstamp`. -/
structure snd_htimestamp_t where
  tv_sec : Nat
  tv_nsec : Nat
deriving DecidableEq, Repr

/-- A `struct timeval` as produced by `gettimeofday` (seconds, microseconds);
passed in as an explicit input wherever the C code samples the clock. -/
structure timeval_t where
  tv_sec : Nat
  tv_usec : Nat
deriving DecidableEq, Repr

/-- The per-client mutable state of `snd_pcm_direct_t` that the dsnoop
operations touch.  `hw_ptr` and `appl_ptr` are the client's own cursors
(`pcm->hw.ptr` / `pcm->appl.ptr` alias these two fields, wired up by
`snd_pcm_set_hw_ptr` / `snd_pcm_set_appl_ptr` in `snd_pcm_dsnoop_open`);
`slave_hw_ptr` is the last observed owner hardware cursor. -/
structure snd_pcm_direct_t where
  state : snd_pcm_state_t
  hw_ptr : Nat
  appl_ptr : Nat
  slave_hw_ptr : Nat
  slave_appl_ptr : Nat
  avail_max : Nat
  trigger_tstamp : snd_htimestamp_t
deriving DecidableEq, Repr

/-- Modelled from the spec: `snd_pcm_mmap_capture_hw_avail` is declared in a
header (`pcm_local.h`) that is not among these source files.  The spec calls
its value "the unread-frame count (the distance `appl_ptr` lags behind
`hw_ptr`)", reduced on the `boundary` ring.  In dsnoop, `pcm->hw.ptr` and
`pcm->appl.ptr` alias `dsnoop->hw_ptr` and `dsnoop->appl_ptr`, so the cursors
are passed explicitly. -/
def snd_pcm_mmap_capture_hw_avail (pcm : snd_pcm_t) (hw_ptr appl_ptr : Nat) : Nat :=
  (hw_ptr % pcm.boundary + pcm.boundary - appl_ptr % pcm.boundary) % pcm.boundary

/-- Modelled from the spec: `snd_pcm_mmap_capture_avail` (also from
`pcm_local.h`), the available-frame count a status query reports; for a
capture stream this is the same unread-frame count, the distance `appl_ptr`
lags behind `hw_ptr` on the `boundary` ring. -/
def snd_pcm_mmap_capture_avail (pcm : snd_pcm_t) (hw_ptr appl_ptr : Nat) : Nat :=
  (hw_ptr % pcm.boundary + pcm.boundary - appl_ptr % pcm.boundary) % pcm.boundary

/-- `snd_pcm_dsnoop_sync_ptr` (pcm_dsnoop.c lines 110-143).  Inputs beyond the
modelled state: `hw_read` is the owner hardware cursor value fetched by the
load `*dsnoop->spcm->hw.ptr`, and `tv` the `gettimeofday` result used if an
overrun is recorded.  `snd_pcm_dsnoop_sync_area` only copies sample data
between the mapped areas and touches none of the modelled fields, so it is
elided.  Returns the updated per-client state and the C return value. -/
def snd_pcm_dsnoop_sync_ptr (pcm : snd_pcm_t) (shm : slave_shm_t)
    (dsnoop : snd_pcm_direct_t) (hw_read : Nat) (tv : timeval_t) :
    snd_pcm_direct_t × Int :=
  let old_slave_hw_ptr := dsnoop.slave_hw_ptr
  let slave_hw_ptr := hw_read % 2 ^ 64
  let dsnoop := { dsnoop with slave_hw_ptr := slave_hw_ptr }
  let diff := toSframes (usub64 slave_hw_ptr old_slave_hw_ptr)
  if diff = 0 then   /- fast path -/
    (dsnoop, 0)
  else
    let diff :=
      if diff < 0 then
        toSframes (usub64 ((slave_hw_ptr + shm.boundary) % 2 ^ 64) old_slave_hw_ptr)
      else diff
    let dsnoop := { dsnoop with
      hw_ptr := (((dsnoop.hw_ptr : Int) + diff) % (2 ^ 64 : Int)).toNat % pcm.boundary }
    if pcm.boundary ≤ pcm.stop_threshold then   /- don't care -/
      (dsnoop, 0)
    else
      let avail := snd_pcm_mmap_capture_hw_avail pcm dsnoop.hw_ptr dsnoop.appl_ptr
      if pcm.stop_threshold ≤ avail then
        ({ dsnoop with
            trigger_tstamp := ⟨tv.tv_sec, tv.tv_usec * 1000⟩
            state := .XRUN
            avail_max := avail }, -EPIPE)
      else
        let dsnoop :=
          if dsnoop.avail_max < avail then { dsnoop with avail_max := avail } else dsnoop
        (dsnoop, diff)

/-- `snd_pcm_dsnoop_status` (lines 321-333).  Only the fields the C code fills
from modelled state are kept (`status->tstamp` comes from the slave stream's
clock and is not modelled).  Returns the updated per-client state (the stored
`avail_max` is cleared) and the filled status record. -/
structure snd_pcm_status_t where
  state : snd_pcm_state_t
  trigger_tstamp : snd_htimestamp_t
  avail : Nat
  avail_max : Nat
deriving DecidableEq, Repr

def snd_pcm_dsnoop_status (pcm : snd_pcm_t) (dsnoop : snd_pcm_direct_t) :
    snd_pcm_direct_t × snd_pcm_status_t :=
  let avail := snd_pcm_mmap_capture_avail pcm dsnoop.hw_ptr dsnoop.appl_ptr
  let status : snd_pcm_status_t :=
    { state := dsnoop.state
      trigger_tstamp := dsnoop.trigger_tstamp
      avail := avail
      avail_max := if dsnoop.avail_max < avail then avail else dsnoop.avail_max }
  ({ dsnoop with avail_max := 0 }, status)

/-- `snd_pcm_dsnoop_state` (lines 335-339). -/
def snd_pcm_dsnoop_state (dsnoop : snd_pcm_direct_t) : snd_pcm_state_t :=
  dsnoop.state

/-- `snd_pcm_dsnoop_delay` (lines 341-361).  The `switch` falls through from
the Running/Draining cases into the Prepared/Suspended cases after a
successful sync.  Returns (state, return code, value stored in `*delayp`). -/
def snd_pcm_dsnoop_delay (pcm : snd_pcm_t) (shm : slave_shm_t)
    (dsnoop : snd_pcm_direct_t) (hw_read : Nat) (tv : timeval_t) :
    snd_pcm_direct_t × Int × Option Nat :=
  match dsnoop.state with
  | .DRAINING | .RUNNING =>
    let r := snd_pcm_dsnoop_sync_ptr pcm shm dsnoop hw_read tv
    if r.2 < 0 then (r.1, r.2, none)
    else (r.1, 0, some (snd_pcm_mmap_capture_hw_avail pcm r.1.hw_ptr r.1.appl_ptr))
  | .PREPARED | .SUSPENDED =>
    (dsnoop, 0, some (snd_pcm_mmap_capture_hw_avail pcm dsnoop.hw_ptr dsnoop.appl_ptr))
  | .XRUN => (dsnoop, -EPIPE, none)
  | _ => (dsnoop, -EBADFD, none)

/-- `snd_pcm_dsnoop_hwsync` (lines 363-379). -/
def snd_pcm_dsnoop_hwsync (pcm : snd_pcm_t) (shm : slave_shm_t)
    (dsnoop : snd_pcm_direct_t) (hw_read : Nat) (tv : timeval_t) :
    snd_pcm_direct_t × Int :=
  match dsnoop.state with
  | .DRAINING | .RUNNING => snd_pcm_dsnoop_sync_ptr pcm shm dsnoop hw_read tv
  | .PREPARED | .SUSPENDED => (dsnoop, 0)
  | .XRUN => (dsnoop, -EPIPE)
  | _ => (dsnoop, -EBADFD)

/-- `snd_pcm_dsnoop_prepare` (lines 381-391).  `snd_pcm_direct_check_interleave`
only recomputes the cached `interleaved` flag from the negotiated format and
touches none of the modelled fields. -/
def snd_pcm_dsnoop_prepare (dsnoop : snd_pcm_direct_t) : snd_pcm_direct_t × Int :=
  ({ dsnoop with state := .PREPARED, appl_ptr := 0, hw_ptr := 0 }, 0)

/-- `snd_pcm_dsnoop_reset` (lines 393-400); `hw_read` is the owner cursor
value fetched by the load `*dsnoop->spcm->hw.ptr`. -/
def snd_pcm_dsnoop_reset (pcm : snd_pcm_t) (dsnoop : snd_pcm_direct_t)
    (hw_read : Nat) : snd_pcm_direct_t × Int :=
  let hw_ptr := dsnoop.hw_ptr % pcm.period_size
  ({ dsnoop with
      hw_ptr := hw_ptr
      appl_ptr := hw_ptr
      slave_appl_ptr := hw_read % 2 ^ 64
      slave_hw_ptr := hw_read % 2 ^ 64 }, 0)

/-- `snd_pcm_dsnoop_start` (lines 402-419).  `timer_err` is the result of the
external `snd_timer_start` call; `hw_read` and `tv` are the owner cursor load
and the `gettimeofday` result. -/
def snd_pcm_dsnoop_start (dsnoop : snd_pcm_direct_t) (hw_read : Nat)
    (tv : timeval_t) (timer_err : Int) : snd_pcm_direct_t × Int :=
  if dsnoop.state ≠ .PREPARED then (dsnoop, -EBADFD)
  else if timer_err < 0 then (dsnoop, timer_err)
  else
    ({ dsnoop with
        state := .RUNNING
        slave_appl_ptr := hw_read % 2 ^ 64
        slave_hw_ptr := hw_read % 2 ^ 64
        trigger_tstamp := ⟨tv.tv_sec, tv.tv_usec * 1000⟩ }, 0)

/-- `snd_pcm_dsnoop_drop` (lines 421-429); `snd_timer_stop` is external and
does not touch modelled state. -/
def snd_pcm_dsnoop_drop (dsnoop : snd_pcm_direct_t) : snd_pcm_direct_t × Int :=
  if dsnoop.state = .OPEN then (dsnoop, -EBADFD)
  else ({ dsnoop with state := .SETUP }, 0)

/-- `snd_pcm_dsnoop_pause` (lines 454-469); the timer start/stop calls are
external and do not touch modelled state. -/
def snd_pcm_dsnoop_pause (dsnoop : snd_pcm_direct_t) (enable : Bool) :
    snd_pcm_direct_t × Int :=
  if enable then
    if dsnoop.state ≠ .RUNNING then (dsnoop, -EBADFD)
    else ({ dsnoop with state := .PAUSED }, 0)
  else
    if dsnoop.state ≠ .PAUSED then (dsnoop, -EBADFD)
    else ({ dsnoop with state := .RUNNING }, 0)

/-- `snd_pcm_dsnoop_writei` (lines 497-500): dsnoop is capture-only; the
buffer and size arguments are ignored (`ATTRIBUTE_UNUSED`). -/
def snd_pcm_dsnoop_writei (dsnoop : snd_pcm_direct_t) (buffer : List Int)
    (size : Nat) : snd_pcm_direct_t × Int :=
  (dsnoop, -ENODEV)

/-- `snd_pcm_dsnoop_writen` (lines 502-505): dsnoop is capture-only; the
buffer and size arguments are ignored (`ATTRIBUTE_UNUSED`). -/
def snd_pcm_dsnoop_writen (dsnoop : snd_pcm_direct_t) (bufs : List (List Int))
    (size : Nat) : snd_pcm_direct_t × Int :=
  (dsnoop, -ENODEV)

/-- The result of `snd_pcm_dsnoop_drain`: either the function returned
(with the possibly modified `pcm` software parameters, the per-client state
and the return code), or the scripted list of owner cursor readings ran out
while the loop was still blocking in `snd_pcm_wait`. -/
inductive drain_result_t where
  | ret (pcm : snd_pcm_t) (dsnoop : snd_pcm_direct_t) (code : Int)
  | no_more_reads
deriving DecidableEq, Repr

/-- The `while (dsnoop->state == SND_PCM_STATE_RUNNING)` loop of
`snd_pcm_dsnoop_drain` (lines 442-449) together with the epilogue (lines
450-451): each loop iteration reads the owner cursor once (via
`snd_pcm_dsnoop_sync_ptr`), so the iterations consume the scripted list of
(cursor value, clock) pairs; `snd_pcm_wait` blocks but touches no modelled
state.  `stop_threshold` is the caller's saved entry value, restored on every
exit path except the non-blocking `-EAGAIN` return. -/
def snd_pcm_dsnoop_drain_loop (pcm : snd_pcm_t) (shm : slave_shm_t)
    (stop_threshold : Nat) (dsnoop : snd_pcm_direct_t) :
    List (Nat × timeval_t) → drain_result_t
  | [] =>
    if dsnoop.state = .RUNNING then .no_more_reads
    else
      .ret { pcm with stop_threshold := stop_threshold }
        (snd_pcm_dsnoop_drop dsnoop).1 (snd_pcm_dsnoop_drop dsnoop).2
  | (h, tv) :: rest =>
    if dsnoop.state = .RUNNING then
      let r := snd_pcm_dsnoop_sync_ptr pcm shm dsnoop h tv
      if r.2 < 0 then
        .ret { pcm with stop_threshold := stop_threshold }
          (snd_pcm_dsnoop_drop r.1).1 (snd_pcm_dsnoop_drop r.1).2
      else if pcm.nonblock then .ret pcm r.1 (-EAGAIN)
      else snd_pcm_dsnoop_drain_loop pcm shm stop_threshold r.1 rest
    else
      .ret { pcm with stop_threshold := stop_threshold }
        (snd_pcm_dsnoop_drop dsnoop).1 (snd_pcm_dsnoop_drop dsnoop).2

/-- The clamp of lines 439-441 of `snd_pcm_dsnoop_drain`:
`if (pcm->stop_threshold > pcm->buffer_size) pcm->stop_threshold = pcm->buffer_size;` -/
def drain_clamp (pcm : snd_pcm_t) : snd_pcm_t :=
  if pcm.buffer_size < pcm.stop_threshold then
    { pcm with stop_threshold := pcm.buffer_size }
  else pcm

/-- `snd_pcm_dsnoop_drain` (lines 431-452).  `pcm.nonblock` models
`pcm->mode & SND_PCM_NONBLOCK`. -/
def snd_pcm_dsnoop_drain (pcm : snd_pcm_t) (shm : slave_shm_t)
    (dsnoop : snd_pcm_direct_t) (reads : List (Nat × timeval_t)) : drain_result_t :=
  if dsnoop.state = .OPEN then .ret pcm dsnoop (-EBADFD)
  else
    let stop_threshold := pcm.stop_threshold
    snd_pcm_dsnoop_drain_loop (drain_clamp pcm) shm stop_threshold dsnoop reads

/-- A sequence of calls into the synchronization entry points: each element is
one `snd_pcm_dsnoop_hwsync` or `snd_pcm_dsnoop_delay` call with the owner
cursor value and clock it would observe. -/
inductive sync_call_t where
  | hwsync_call (hw_read : Nat) (tv : timeval_t)
  | delay_call (hw_read : Nat) (tv : timeval_t)
deriving DecidableEq, Repr

/-- Run a sequence of hwsync/delay calls, threading the per-client state. -/
def runSyncCalls (pcm : snd_pcm_t) (shm : slave_shm_t)
    (dsnoop : snd_pcm_direct_t) : List sync_call_t → snd_pcm_direct_t
  | [] => dsnoop
  | .hwsync_call h tv :: rest =>
    runSyncCalls pcm shm (snd_pcm_dsnoop_hwsync pcm shm dsnoop h tv).1 rest
  | .delay_call h tv :: rest =>
    runSyncCalls pcm shm (snd_pcm_dsnoop_delay pcm shm dsnoop h tv).1 rest

/-- Iterate `snd_pcm_dsnoop_sync_ptr` over a list of successive owner cursor
readings (the clock input is irrelevant to the cursors). -/
def syncSteps (pcm : snd_pcm_t) (shm : slave_shm_t) (tv : timeval_t)
    (dsnoop : snd_pcm_direct_t) : List Nat → snd_pcm_direct_t
  | [] => dsnoop
  | h :: rest => syncSteps pcm shm tv (snd_pcm_dsnoop_sync_ptr pcm shm dsnoop h tv).1 rest

/-- The owner cursor readings produced when the owner advances by the given
deltas in turn, starting from cursor value `s0`: each reading is the previous
cursor plus the delta, reduced modulo the owner boundary (the owner maintains
its cursor modulo `boundary`). -/
def ownerReadings (shm : slave_shm_t) (s0 : Nat) : List Nat → List Nat
  | [] => []
  | d :: rest =>
    ((s0 + d) % shm.boundary) :: ownerReadings shm ((s0 + d) % shm.boundary) rest

/-- The elapsed owner-cursor distance a sync step observes: the plain
difference when the new reading is not numerically below the old one, and the
wrap-corrected difference otherwise. -/
def syncDelta (shm : slave_shm_t) (old new_ : Nat) : Nat :=
  if old ≤ new_ then new_ - old else new_ + shm.boundary - old

/-! ### Arithmetic of the C pointer subtraction -/

lemma toSframes_usub64 (a b : Nat) (ha : a < 2 ^ 63) (hb : b < 2 ^ 63) :
    toSframes (usub64 a b) = (a : Int) - (b : Int) := by
  unfold toSframes usub64
  have ha' : a % 2 ^ 64 = a := Nat.mod_eq_of_lt (by omega)
  have hb' : b % 2 ^ 64 = b := Nat.mod_eq_of_lt (by omega)
  rw [ha', hb']
  rcases le_or_lt b a with hle | hlt
  · have h1 : (a + 2 ^ 64 - b) % 2 ^ 64 = a - b := by omega
    rw [h1, if_pos (by omega)]
    omega
  · have h1 : (a + 2 ^ 64 - b) % 2 ^ 64 = a + 2 ^ 64 - b := by omega
    rw [h1, if_neg (by omega)]
    omega

/-! ### Characterization of one synchronization step

Under the structural invariants the engine maintains — the stored observation
`slave_hw_ptr` and the freshly read owner cursor both lie below the owner
boundary, the client cursor below the client boundary, and both boundaries
within the range where the C signed reinterpretation is exact — one call to
`snd_pcm_dsnoop_sync_ptr` reduces to a clean case split. -/

lemma snd_pcm_dsnoop_sync_ptr_eq (pcm : snd_pcm_t) (shm : slave_shm_t)
    (d : snd_pcm_direct_t) (h : Nat) (tv : timeval_t)
    (hB : shm.boundary ≤ 2 ^ 62) (hpB : pcm.boundary ≤ 2 ^ 62)
    (hold : d.slave_hw_ptr < shm.boundary) (hh : h < shm.boundary)
    (hhw : d.hw_ptr < pcm.boundary) :
    snd_pcm_dsnoop_sync_ptr pcm shm d h tv =
      (if h = d.slave_hw_ptr then ({ d with slave_hw_ptr := h }, 0)
       else
         let dN := syncDelta shm d.slave_hw_ptr h
         let d2 := { d with slave_hw_ptr := h, hw_ptr := (d.hw_ptr + dN) % pcm.boundary }
         if pcm.boundary ≤ pcm.stop_threshold then (d2, 0)
         else
           let avail := snd_pcm_mmap_capture_hw_avail pcm d2.hw_ptr d2.appl_ptr
           if pcm.stop_threshold ≤ avail then
             ({ d2 with
                 trigger_tstamp := ⟨tv.tv_sec, tv.tv_usec * 1000⟩
                 state := .XRUN
                 avail_max := avail }, -EPIPE)
           else
             (if d.avail_max < avail then { d2 with avail_max := avail } else d2,
              (dN : Int))) := by
  have hmod : h % 2 ^ 64 = h := Nat.mod_eq_of_lt (by omega)
  have hdiffA : toSframes (usub64 h d.slave_hw_ptr) = (h : Int) - d.slave_hw_ptr :=
    toSframes_usub64 _ _ (by omega) (by omega)
  rcases lt_trichotomy h d.slave_hw_ptr with hlt | heq | hgt
  · -- the owner cursor wrapped past the boundary
    have hne : h ≠ d.slave_hw_ptr := by omega
    have hwrapmod : (h + shm.boundary) % 2 ^ 64 = h + shm.boundary :=
      Nat.mod_eq_of_lt (by omega)
    have hdiffB : toSframes (usub64 (h + shm.boundary) d.slave_hw_ptr)
        = ((h + shm.boundary : Nat) : Int) - d.slave_hw_ptr :=
      toSframes_usub64 _ _ (by omega) (by omega)
    have hcast : ((h + shm.boundary : Nat) : Int) - d.slave_hw_ptr
        = ((h + shm.boundary - d.slave_hw_ptr : Nat) : Int) := by omega
    have hptr : (((d.hw_ptr : Int)
          + ((h + shm.boundary - d.slave_hw_ptr : Nat) : Int)) % (2 ^ 64 : Int)).toNat
        = d.hw_ptr + (h + shm.boundary - d.slave_hw_ptr) := by
      omega
    have hdN : syncDelta shm d.slave_hw_ptr h = h + shm.boundary - d.slave_hw_ptr := by
      unfold syncDelta; rw [if_neg (by omega)]
    simp only [snd_pcm_dsnoop_sync_ptr, hmod, hwrapmod, hdiffA, hdiffB, hcast, hdN]
    rw [if_neg (show ¬((h : Int) - d.slave_hw_ptr = 0) by omega),
      if_pos (show (h : Int) - d.slave_hw_ptr < 0 by omega),
      if_neg hne, hptr]
  · -- fast path: no progress
    subst heq
    simp only [snd_pcm_dsnoop_sync_ptr, hmod, hdiffA]
    rw [if_pos (show (d.slave_hw_ptr : Int) - d.slave_hw_ptr = 0 by omega)]
    simp
  · -- plain forward progress
    have hne : h ≠ d.slave_hw_ptr := by omega
    have hcast : (h : Int) - d.slave_hw_ptr = ((h - d.slave_hw_ptr : Nat) : Int) := by
      omega
    have hptr : (((d.hw_ptr : Int) + ((h - d.slave_hw_ptr : Nat) : Int))
          % (2 ^ 64 : Int)).toNat
        = d.hw_ptr + (h - d.slave_hw_ptr) := by
      omega
    have hdN : syncDelta shm d.slave_hw_ptr h = h - d.slave_hw_ptr := by
      unfold syncDelta; rw [if_pos (by omega)]
    simp only [snd_pcm_dsnoop_sync_ptr, hmod, hdiffA, hcast, hdN]
    rw [if_neg (show ¬(((h - d.slave_hw_ptr : Nat) : Int) = 0) by omega),
      if_neg (show ¬(((h - d.slave_hw_ptr : Nat) : Int) < 0) by omega),
      if_neg hne, hptr]

/-- If the last observed owner cursor is `s < boundary` and the owner has
advanced by `dlt < boundary`, the fresh reading is `(s + dlt) % boundary`;
the delta the engine reconstructs from that reading is exactly `dlt`. -/
lemma syncDelta_of_advance (shm : slave_shm_t) (s dlt : Nat)
    (hs : s < shm.boundary) (hdlt : dlt < shm.boundary) :
    syncDelta shm s ((s + dlt) % shm.boundary) = dlt := by
  unfold syncDelta
  rcases Nat.lt_or_ge (s + dlt) shm.boundary with hlt | hge
  · rw [Nat.mod_eq_of_lt hlt, if_pos (by omega)]
    omega
  · have hself : (s + dlt) % shm.boundary = s + dlt - shm.boundary := by
      rw [Nat.mod_eq_sub_mod hge, Nat.mod_eq_of_lt (by omega)]
    rw [hself, if_neg (by omega)]
    omega

/-- A reading that equals the stored observation corresponds to a zero
advance (when the advance is known to be less than one boundary). -/
lemma advance_zero_of_same_reading (shm : slave_shm_t) (s dlt : Nat)
    (hs : s < shm.boundary) (hdlt : dlt < shm.boundary)
    (hsame : (s + dlt) % shm.boundary = s) : dlt = 0 := by
  rcases Nat.lt_or_ge (s + dlt) shm.boundary with hlt | hge
  · rw [Nat.mod_eq_of_lt hlt] at hsame
    omega
  · rw [Nat.mod_eq_sub_mod hge, Nat.mod_eq_of_lt (by omega)] at hsame
    omega

/-- One synchronization step under a legitimate owner advance `dlt <
boundary`: reading the owner cursor `(slave_hw_ptr + dlt) % boundary`
advances both the stored owner observation and the client cursor by exactly
`dlt`, each modulo its own boundary, and leaves `appl_ptr` untouched — in
every branch, the overrun branch included. -/
lemma sync_ptr_step (pcm : snd_pcm_t) (shm : slave_shm_t)
    (d : snd_pcm_direct_t) (tv : timeval_t) (dlt : Nat)
    (hB : shm.boundary ≤ 2 ^ 62) (hpB : pcm.boundary ≤ 2 ^ 62)
    (hold : d.slave_hw_ptr < shm.boundary) (hhw : d.hw_ptr < pcm.boundary)
    (hdlt : dlt < shm.boundary) :
    ((snd_pcm_dsnoop_sync_ptr pcm shm d ((d.slave_hw_ptr + dlt) % shm.boundary) tv).1.slave_hw_ptr
        = (d.slave_hw_ptr + dlt) % shm.boundary)
    ∧ ((snd_pcm_dsnoop_sync_ptr pcm shm d ((d.slave_hw_ptr + dlt) % shm.boundary) tv).1.hw_ptr
        = (d.hw_ptr + dlt) % pcm.boundary)
    ∧ ((snd_pcm_dsnoop_sync_ptr pcm shm d ((d.slave_hw_ptr + dlt) % shm.boundary) tv).1.appl_ptr
        = d.appl_ptr) := by
  have hh : (d.slave_hw_ptr + dlt) % shm.boundary < shm.boundary :=
    Nat.mod_lt _ (by omega)
  rw [snd_pcm_dsnoop_sync_ptr_eq pcm shm d _ tv hB hpB hold hh hhw]
  by_cases hfast : (d.slave_hw_ptr + dlt) % shm.boundary = d.slave_hw_ptr
  · have hdlt0 : dlt = 0 := advance_zero_of_same_reading shm _ _ hold hdlt hfast
    subst hdlt0
    rw [if_pos hfast]
    refine ⟨rfl, ?_, rfl⟩
    simp [Nat.mod_eq_of_lt hhw]
  · have hdN := syncDelta_of_advance shm d.slave_hw_ptr dlt hold hdlt
    rw [if_neg hfast]
    simp only [hdN]
    split_ifs <;> simp

/-- Iterating synchronization over any sequence of legitimate owner
advances: both cursors end up advanced by the total elapsed distance, each
reduced modulo its own boundary. -/
lemma syncSteps_lockstep (pcm : snd_pcm_t) (shm : slave_shm_t) (tv : timeval_t)
    (deltas : List Nat) :
    ∀ d : snd_pcm_direct_t,
      shm.boundary ≤ 2 ^ 62 → pcm.boundary ≤ 2 ^ 62 →
      d.slave_hw_ptr < shm.boundary → d.hw_ptr < pcm.boundary →
      (∀ x ∈ deltas, x < shm.boundary) →
      (syncSteps pcm shm tv d (ownerReadings shm d.slave_hw_ptr deltas)).slave_hw_ptr
          = (d.slave_hw_ptr + deltas.sum) % shm.boundary
        ∧ (syncSteps pcm shm tv d (ownerReadings shm d.slave_hw_ptr deltas)).hw_ptr
          = (d.hw_ptr + deltas.sum) % pcm.boundary := by
  induction deltas with
  | nil =>
    intro d hB hpB hs hhw _
    simp [syncSteps, ownerReadings, Nat.mod_eq_of_lt hs, Nat.mod_eq_of_lt hhw]
  | cons dlt rest ih =>
    intro d hB hpB hs hhw hall
    obtain ⟨h1, h2, _⟩ :=
      sync_ptr_step pcm shm d tv dlt hB hpB hs hhw (hall dlt (by simp))
    simp only [ownerReadings, syncSteps, List.sum_cons]
    have hs1 : ((snd_pcm_dsnoop_sync_ptr pcm shm d
        ((d.slave_hw_ptr + dlt) % shm.boundary) tv).1).slave_hw_ptr < shm.boundary := by
      rw [h1]; exact Nat.mod_lt _ (by omega)
    have hhw1 : ((snd_pcm_dsnoop_sync_ptr pcm shm d
        ((d.slave_hw_ptr + dlt) % shm.boundary) tv).1).hw_ptr < pcm.boundary := by
      rw [h2]; exact Nat.mod_lt _ (by omega)
    have hrest := ih _ hB hpB hs1 hhw1 (fun x hx => hall x (by simp [hx]))
    rw [h1] at hrest
    refine ⟨?_, ?_⟩
    · rw [hrest.1, Nat.mod_add_mod, Nat.add_assoc]
    · rw [hrest.2, h2, Nat.mod_add_mod, Nat.add_assoc]

/-! ### Concrete sample instances, used by the witness theorems -/

/-- A sample client configuration: boundary 32, buffer 8, stop threshold 20
(overrun detection enabled), blocking mode. -/
def pcm_w : snd_pcm_t :=
  { boundary := 32, buffer_size := 8, period_size := 4
    stop_threshold := 20, nonblock := false }

/-- Variant of `pcm_w` with overrun detection disabled
(stop threshold = boundary). -/
def pcm_nothr_w : snd_pcm_t :=
  { boundary := 32, buffer_size := 8, period_size := 4
    stop_threshold := 32, nonblock := false }

/-- Variant of `pcm_w` in non-blocking mode. -/
def pcm_nb_w : snd_pcm_t :=
  { boundary := 32, buffer_size := 8, period_size := 4
    stop_threshold := 20, nonblock := true }

/-- Sample owner-side shared parameters: boundary 32, buffer 8. -/
def shm_w : slave_shm_t := { boundary := 32, buffer_size := 8 }

/-- A sample clock reading. -/
def tv_w : timeval_t := { tv_sec := 7, tv_usec := 5 }

/-- The zero timestamp. -/
def ts0 : snd_htimestamp_t := { tv_sec := 0, tv_nsec := 0 }

/-- A running client that last observed owner cursor 3, with its own cursors
at 2 and nothing unread. -/
def dsnoop_w : snd_pcm_direct_t :=
  { state := .RUNNING, hw_ptr := 2, appl_ptr := 2, slave_hw_ptr := 3
    slave_appl_ptr := 3, avail_max := 0, trigger_tstamp := ts0 }

/-- A running client whose last observed owner cursor is `boundary - 10 = 22`
(about to witness a wraparound). -/
def dsnoop_wrap_w : snd_pcm_direct_t :=
  { state := .RUNNING, hw_ptr := 0, appl_ptr := 0, slave_hw_ptr := 22
    slave_appl_ptr := 22, avail_max := 0, trigger_tstamp := ts0 }

/-- A running client with all cursors at zero. -/
def dsnoop_zero_w : snd_pcm_direct_t :=
  { state := .RUNNING, hw_ptr := 0, appl_ptr := 0, slave_hw_ptr := 0
    slave_appl_ptr := 0, avail_max := 0, trigger_tstamp := ts0 }

/-- A freshly attached client, still in the Open state. -/
def dsnoop_open_w : snd_pcm_direct_t :=
  { state := .OPEN, hw_ptr := 0, appl_ptr := 0, slave_hw_ptr := 0
    slave_appl_ptr := 0, avail_max := 0, trigger_tstamp := ts0 }

/-- A client stuck in the overrun (XRUN) state. -/
def dsnoop_xrun_w : snd_pcm_direct_t :=
  { state := .XRUN, hw_ptr := 12, appl_ptr := 2, slave_hw_ptr := 13
    slave_appl_ptr := 3, avail_max := 10, trigger_tstamp := ts0 }

/-! ### The claims -/

/-- C1: for every successful synchronization step in which the owner cursor
has advanced by some `dlt ≥ 0` (reading `(slave_hw_ptr + dlt) % boundary`),
`snd_pcm_dsnoop_sync_ptr` updates `slave_hw_ptr` to
`(old slave_hw_ptr + dlt) % boundary` and advances the client's `hw_ptr` by
the identical `dlt` modulo the client's own `pcm.boundary`; and over any
sequence of sync steps the two cursors advance by the identical total elapsed
distance, each reduced modulo its own boundary. -/
theorem sync_ptr_lockstep_advance (pcm : snd_pcm_t) (shm : slave_shm_t)
    (d : snd_pcm_direct_t) (tv : timeval_t) (dlt : Nat) (deltas : List Nat)
    (hB : shm.boundary ≤ 2 ^ 62) (hpB : pcm.boundary ≤ 2 ^ 62)
    (hs : d.slave_hw_ptr < shm.boundary) (hhw : d.hw_ptr < pcm.boundary)
    (hdlt : dlt < shm.boundary) (hall : ∀ x ∈ deltas, x < shm.boundary) :
    (((snd_pcm_dsnoop_sync_ptr pcm shm d ((d.slave_hw_ptr + dlt) % shm.boundary) tv).1.slave_hw_ptr
        = (d.slave_hw_ptr + dlt) % shm.boundary)
      ∧ ((snd_pcm_dsnoop_sync_ptr pcm shm d ((d.slave_hw_ptr + dlt) % shm.boundary) tv).1.hw_ptr
        = (d.hw_ptr + dlt) % pcm.boundary))
    ∧ ((syncSteps pcm shm tv d (ownerReadings shm d.slave_hw_ptr deltas)).slave_hw_ptr
        = (d.slave_hw_ptr + deltas.sum) % shm.boundary
      ∧ (syncSteps pcm shm tv d (ownerReadings shm d.slave_hw_ptr deltas)).hw_ptr
        = (d.hw_ptr + deltas.sum) % pcm.boundary) := by
  obtain ⟨a, b, _⟩ := sync_ptr_step pcm shm d tv dlt hB hpB hs hhw hdlt
  exact ⟨⟨a, b⟩, syncSteps_lockstep pcm shm tv deltas d hB hpB hs hhw hall⟩

/-- Witness for C1 at a concrete instance: a single step of 5 frames and the
sequence of advances [5, 30, 0, 22] (total 57) from `slave_hw_ptr = 3`,
`hw_ptr = 2`, boundaries 32/32. -/
theorem sync_ptr_lockstep_advance_witness :
    (((snd_pcm_dsnoop_sync_ptr pcm_w shm_w dsnoop_w
          ((dsnoop_w.slave_hw_ptr + 5) % shm_w.boundary) tv_w).1.slave_hw_ptr
        = (dsnoop_w.slave_hw_ptr + 5) % shm_w.boundary)
      ∧ ((snd_pcm_dsnoop_sync_ptr pcm_w shm_w dsnoop_w
          ((dsnoop_w.slave_hw_ptr + 5) % shm_w.boundary) tv_w).1.hw_ptr
        = (dsnoop_w.hw_ptr + 5) % pcm_w.boundary))
    ∧ ((syncSteps pcm_w shm_w tv_w dsnoop_w
          (ownerReadings shm_w dsnoop_w.slave_hw_ptr [5, 30, 0, 22])).slave_hw_ptr
        = (dsnoop_w.slave_hw_ptr + [5, 30, 0, 22].sum) % shm_w.boundary
      ∧ (syncSteps pcm_w shm_w tv_w dsnoop_w
          (ownerReadings shm_w dsnoop_w.slave_hw_ptr [5, 30, 0, 22])).hw_ptr
        = (dsnoop_w.hw_ptr + [5, 30, 0, 22].sum) % pcm_w.boundary) :=
  sync_ptr_lockstep_advance pcm_w shm_w dsnoop_w tv_w 5 [5, 30, 0, 22]
    (by decide) (by decide) (by decide) (by decide) (by decide) (by decide)

/-- C2: when the newly read owner cursor `h` is numerically less than the
previously observed `slave_hw_ptr` (the owner wrapped past the boundary), the
engine computes the diff as `h + boundary - old`, never negative: the client
cursor advances by exactly that amount and, with overrun detection enabled
and no overrun hit, the call returns it. -/
theorem sync_ptr_wraparound_diff (pcm : snd_pcm_t) (shm : slave_shm_t)
    (d : snd_pcm_direct_t) (tv : timeval_t) (h : Nat)
    (hB : shm.boundary ≤ 2 ^ 62) (hpB : pcm.boundary ≤ 2 ^ 62)
    (hs : d.slave_hw_ptr < shm.boundary) (hhw : d.hw_ptr < pcm.boundary)
    (hh : h < shm.boundary) (hwrap : h < d.slave_hw_ptr)
    (hstop : pcm.stop_threshold < pcm.boundary)
    (hav : snd_pcm_mmap_capture_hw_avail pcm
        ((d.hw_ptr + (h + shm.boundary - d.slave_hw_ptr)) % pcm.boundary) d.appl_ptr
        < pcm.stop_threshold) :
    (snd_pcm_dsnoop_sync_ptr pcm shm d h tv).1.hw_ptr
        = (d.hw_ptr + (h + shm.boundary - d.slave_hw_ptr)) % pcm.boundary
    ∧ (snd_pcm_dsnoop_sync_ptr pcm shm d h tv).2
        = ((h + shm.boundary - d.slave_hw_ptr : Nat) : Int)
    ∧ 0 ≤ (snd_pcm_dsnoop_sync_ptr pcm shm d h tv).2 := by
  have hne : h ≠ d.slave_hw_ptr := by omega
  have hdN : syncDelta shm d.slave_hw_ptr h = h + shm.boundary - d.slave_hw_ptr := by
    unfold syncDelta; rw [if_neg (by omega)]
  rw [snd_pcm_dsnoop_sync_ptr_eq pcm shm d h tv hB hpB hs hh hhw, if_neg hne]
  simp only [hdN]
  rw [if_neg (show ¬ pcm.boundary ≤ pcm.stop_threshold by omega),
    if_neg (show ¬ pcm.stop_threshold ≤ snd_pcm_mmap_capture_hw_avail pcm
        ((d.hw_ptr + (h + shm.boundary - d.slave_hw_ptr)) % pcm.boundary) d.appl_ptr
      by omega)]
  refine ⟨?_, rfl, Int.natCast_nonneg _⟩
  split_ifs <;> rfl

/-- Witness for C2, realising the spec's scenario: the owner cursor wraps
from `boundary - 10 = 22` to `9`; the computed diff is `9 + 32 - 22 = 19`,
returned as such, never negative. -/
theorem sync_ptr_wraparound_diff_witness :
    (snd_pcm_dsnoop_sync_ptr pcm_w shm_w dsnoop_wrap_w 9 tv_w).2 = 19
    ∧ (snd_pcm_dsnoop_sync_ptr pcm_w shm_w dsnoop_wrap_w 9 tv_w).1.hw_ptr = 19
    ∧ 0 ≤ (snd_pcm_dsnoop_sync_ptr pcm_w shm_w dsnoop_wrap_w 9 tv_w).2 := by
  obtain ⟨h1, h2, h3⟩ := sync_ptr_wraparound_diff pcm_w shm_w dsnoop_wrap_w tv_w 9
    (by decide) (by decide) (by decide) (by decide) (by decide) (by decide)
    (by decide) (by decide)
  refine ⟨?_, ?_, h3⟩
  · rw [h2]; decide
  · rw [h1]; decide

/-- C3: when the advance is nonzero, detection is enabled
(`stop_threshold < boundary`) and the post-advance unread count reaches the
stop threshold, sync sets the client's state to XRUN, records the trigger
timestamp and `avail_max := avail`, returns `-EPIPE`, and modifies only the
calling client's per-client record (`appl_ptr` and the shared parameters are
untouched; `shm` is not even an output of the function). -/
theorem sync_ptr_overrun_xrun (pcm : snd_pcm_t) (shm : slave_shm_t)
    (d : snd_pcm_direct_t) (tv : timeval_t) (h : Nat)
    (hB : shm.boundary ≤ 2 ^ 62) (hpB : pcm.boundary ≤ 2 ^ 62)
    (hs : d.slave_hw_ptr < shm.boundary) (hhw : d.hw_ptr < pcm.boundary)
    (hh : h < shm.boundary) (hne : h ≠ d.slave_hw_ptr)
    (hstop : pcm.stop_threshold < pcm.boundary)
    (hav : pcm.stop_threshold ≤ snd_pcm_mmap_capture_hw_avail pcm
        ((d.hw_ptr + syncDelta shm d.slave_hw_ptr h) % pcm.boundary) d.appl_ptr) :
    snd_pcm_dsnoop_sync_ptr pcm shm d h tv =
      ({ d with
          slave_hw_ptr := h
          hw_ptr := (d.hw_ptr + syncDelta shm d.slave_hw_ptr h) % pcm.boundary
          state := .XRUN
          avail_max := snd_pcm_mmap_capture_hw_avail pcm
            ((d.hw_ptr + syncDelta shm d.slave_hw_ptr h) % pcm.boundary) d.appl_ptr
          trigger_tstamp := ⟨tv.tv_sec, tv.tv_usec * 1000⟩ }, -EPIPE) := by
  rw [snd_pcm_dsnoop_sync_ptr_eq pcm shm d h tv hB hpB hs hh hhw, if_neg hne]
  simp only []
  rw [if_neg (show ¬ pcm.boundary ≤ pcm.stop_threshold by omega), if_pos hav]

/-- Witness for C3: from all-zero cursors an advance of 25 frames exceeds the
stop threshold 20; sync records XRUN with timestamp (7, 5000) and
`avail_max = 25` and returns `-EPIPE`. -/
theorem sync_ptr_overrun_xrun_witness :
    snd_pcm_dsnoop_sync_ptr pcm_w shm_w dsnoop_zero_w 25 tv_w =
      ({ state := .XRUN, hw_ptr := 25, appl_ptr := 0, slave_hw_ptr := 25
         slave_appl_ptr := 0, avail_max := 25
         trigger_tstamp := ⟨7, 5000⟩ }, -EPIPE) := by
  rw [sync_ptr_overrun_xrun pcm_w shm_w dsnoop_zero_w tv_w 25
    (by decide) (by decide) (by decide) (by decide) (by decide) (by decide)
    (by decide) (by decide)]
  decide

/-- C4 counterexample: the claim says that whenever no overrun is detected
and the owner cursor moved, the call returns the computed diff.  But with
overrun detection disabled (`stop_threshold ≥ boundary`, the standard way to
switch xrun detection off) the code returns 0 from the "don't care" early
exit even though it advanced the cursors: here the owner advances 5 frames,
no overrun occurs (the state stays Running), yet the return value is 0, not
5. -/
theorem sync_ptr_return_cex :
    (snd_pcm_dsnoop_sync_ptr pcm_nothr_w shm_w dsnoop_zero_w 5 tv_w).1.hw_ptr = 5
    ∧ (snd_pcm_dsnoop_sync_ptr pcm_nothr_w shm_w dsnoop_zero_w 5 tv_w).1.state
        = snd_pcm_state_t.RUNNING
    ∧ ¬ (snd_pcm_dsnoop_sync_ptr pcm_nothr_w shm_w dsnoop_zero_w 5 tv_w).2 = 5 := by
  decide

/-- C4 (amended): in a state where synchronization is legal, the return value
is: 0 on the fast path (owner cursor equals the previously observed
`slave_hw_ptr` — no state change at all); with overrun detection disabled
(`stop_threshold ≥ boundary`) 0 regardless of progress; and otherwise, when
no overrun is detected, exactly the computed diff. -/
theorem sync_ptr_return_value (pcm : snd_pcm_t) (shm : slave_shm_t)
    (d : snd_pcm_direct_t) (tv : timeval_t) (h : Nat)
    (hB : shm.boundary ≤ 2 ^ 62) (hpB : pcm.boundary ≤ 2 ^ 62)
    (hs : d.slave_hw_ptr < shm.boundary) (hhw : d.hw_ptr < pcm.boundary)
    (hh : h < shm.boundary) :
    (h = d.slave_hw_ptr → snd_pcm_dsnoop_sync_ptr pcm shm d h tv = (d, 0))
    ∧ (h ≠ d.slave_hw_ptr → pcm.boundary ≤ pcm.stop_threshold →
        (snd_pcm_dsnoop_sync_ptr pcm shm d h tv).2 = 0)
    ∧ (h ≠ d.slave_hw_ptr → pcm.stop_threshold < pcm.boundary →
        snd_pcm_mmap_capture_hw_avail pcm
            ((d.hw_ptr + syncDelta shm d.slave_hw_ptr h) % pcm.boundary) d.appl_ptr
          < pcm.stop_threshold →
        (snd_pcm_dsnoop_sync_ptr pcm shm d h tv).2
          = ((syncDelta shm d.slave_hw_ptr h : Nat) : Int)) := by
  rw [snd_pcm_dsnoop_sync_ptr_eq pcm shm d h tv hB hpB hs hh hhw]
  refine ⟨?_, ?_, ?_⟩
  · intro heq
    rw [if_pos heq, heq]
  · intro hne hthr
    rw [if_neg hne]
    simp only []
    rw [if_pos hthr]
  · intro hne hthr hav
    rw [if_neg hne]
    simp only []
    rw [if_neg (show ¬ pcm.boundary ≤ pcm.stop_threshold by omega),
      if_neg (show ¬ pcm.stop_threshold ≤ snd_pcm_mmap_capture_hw_avail pcm
          ((d.hw_ptr + syncDelta shm d.slave_hw_ptr h) % pcm.boundary) d.appl_ptr
        by omega)]

/-- Witness for C4 (amended): the fast path returns 0 with no state change;
with detection disabled a 5-frame advance still returns 0; with detection
enabled and no overrun the same 5-frame advance returns 5. -/
theorem sync_ptr_return_value_witness :
    snd_pcm_dsnoop_sync_ptr pcm_w shm_w dsnoop_w dsnoop_w.slave_hw_ptr tv_w = (dsnoop_w, 0)
    ∧ (snd_pcm_dsnoop_sync_ptr pcm_nothr_w shm_w dsnoop_zero_w 5 tv_w).2 = 0
    ∧ (snd_pcm_dsnoop_sync_ptr pcm_w shm_w dsnoop_zero_w 5 tv_w).2 = 5 := by
  refine ⟨(sync_ptr_return_value pcm_w shm_w dsnoop_w tv_w dsnoop_w.slave_hw_ptr
      (by decide) (by decide) (by decide) (by decide) (by decide)).1 rfl,
    (sync_ptr_return_value pcm_nothr_w shm_w dsnoop_zero_w tv_w 5
      (by decide) (by decide) (by decide) (by decide) (by decide)).2.1
      (by decide) (by decide), ?_⟩
  have h3 := (sync_ptr_return_value pcm_w shm_w dsnoop_zero_w tv_w 5
      (by decide) (by decide) (by decide) (by decide) (by decide)).2.2
      (by decide) (by decide) (by decide)
  rw [h3]; decide

/-- C5: every operation of the capture state machine that has a
state-legality guard returns `-EBADFD` from an illegal state and leaves the
whole per-client record unchanged: start from anything but Prepared,
pause-enable from anything but Running, pause-disable from anything but
Paused, drop and drain from Open, and hwsync/delay from the states their
`switch` does not list (Open, Setup, Paused, Disconnected). -/
theorem illegal_state_ops_ebadfd (pcm : snd_pcm_t) (shm : slave_shm_t)
    (d : snd_pcm_direct_t) (h : Nat) (tv : timeval_t) (timer_err : Int)
    (reads : List (Nat × timeval_t)) :
    (d.state ≠ .PREPARED → snd_pcm_dsnoop_start d h tv timer_err = (d, -EBADFD))
    ∧ (d.state ≠ .RUNNING → snd_pcm_dsnoop_pause d true = (d, -EBADFD))
    ∧ (d.state ≠ .PAUSED → snd_pcm_dsnoop_pause d false = (d, -EBADFD))
    ∧ (d.state = .OPEN → snd_pcm_dsnoop_drop d = (d, -EBADFD))
    ∧ (d.state = .OPEN →
        snd_pcm_dsnoop_drain pcm shm d reads = .ret pcm d (-EBADFD))
    ∧ ((d.state = .OPEN ∨ d.state = .SETUP ∨ d.state = .PAUSED
          ∨ d.state = .DISCONNECTED) →
        snd_pcm_dsnoop_hwsync pcm shm d h tv = (d, -EBADFD)
        ∧ snd_pcm_dsnoop_delay pcm shm d h tv = (d, -EBADFD, none)) := by
  refine ⟨?_, ?_, ?_, ?_, ?_, ?_⟩
  · intro hst; simp [snd_pcm_dsnoop_start, hst]
  · intro hst; simp [snd_pcm_dsnoop_pause, hst]
  · intro hst; simp [snd_pcm_dsnoop_pause, hst]
  · intro hst; simp [snd_pcm_dsnoop_drop, hst]
  · intro hst; simp [snd_pcm_dsnoop_drain, hst]
  · intro hst
    rcases hst with hst | hst | hst | hst <;>
      exact ⟨by simp [snd_pcm_dsnoop_hwsync, hst],
             by simp [snd_pcm_dsnoop_delay, hst]⟩

/-- Witness for C5: from the Open state every guarded operation fails with
`-EBADFD` and the record is unchanged. -/
theorem illegal_state_ops_ebadfd_witness :
    snd_pcm_dsnoop_start dsnoop_open_w 0 tv_w 0 = (dsnoop_open_w, -EBADFD)
    ∧ snd_pcm_dsnoop_pause dsnoop_open_w true = (dsnoop_open_w, -EBADFD)
    ∧ snd_pcm_dsnoop_pause dsnoop_open_w false = (dsnoop_open_w, -EBADFD)
    ∧ snd_pcm_dsnoop_drop dsnoop_open_w = (dsnoop_open_w, -EBADFD)
    ∧ snd_pcm_dsnoop_drain pcm_w shm_w dsnoop_open_w []
        = .ret pcm_w dsnoop_open_w (-EBADFD)
    ∧ snd_pcm_dsnoop_hwsync pcm_w shm_w dsnoop_open_w 0 tv_w
        = (dsnoop_open_w, -EBADFD)
    ∧ snd_pcm_dsnoop_delay pcm_w shm_w dsnoop_open_w 0 tv_w
        = (dsnoop_open_w, -EBADFD, none) := by
  obtain ⟨a, b, c, e, f, g⟩ :=
    illegal_state_ops_ebadfd pcm_w shm_w dsnoop_open_w 0 tv_w 0 []
  exact ⟨a (by decide), b (by decide), c (by decide), e rfl, f rfl,
    (g (Or.inl rfl)).1, (g (Or.inl rfl)).2⟩

/-- C6: once the client is in the XRUN state, every hwsync and every delay
call returns `-EPIPE` without modifying any per-client field (`appl_ptr`
included), and any sequence of such calls leaves the record — hence the XRUN
state — exactly as it was: the overrun is never silently cleared. -/
theorem xrun_sticky_epipe (pcm : snd_pcm_t) (shm : slave_shm_t)
    (d : snd_pcm_direct_t) (h : Nat) (tv : timeval_t)
    (calls : List sync_call_t) (hx : d.state = .XRUN) :
    snd_pcm_dsnoop_hwsync pcm shm d h tv = (d, -EPIPE)
    ∧ snd_pcm_dsnoop_delay pcm shm d h tv = (d, -EPIPE, none)
    ∧ runSyncCalls pcm shm d calls = d
    ∧ (runSyncCalls pcm shm d calls).state = .XRUN
    ∧ (runSyncCalls pcm shm d calls).appl_ptr = d.appl_ptr := by
  have hrun : runSyncCalls pcm shm d calls = d := by
    induction calls with
    | nil => rfl
    | cons c rest ih =>
      cases c with
      | hwsync_call hh htv => simpa [runSyncCalls, snd_pcm_dsnoop_hwsync, hx] using ih
      | delay_call hh htv => simpa [runSyncCalls, snd_pcm_dsnoop_delay, hx] using ih
  exact ⟨by simp [snd_pcm_dsnoop_hwsync, hx],
    by simp [snd_pcm_dsnoop_delay, hx],
    hrun, by rw [hrun, hx], by rw [hrun]⟩

/-- Witness for C6: a client in XRUN sees `-EPIPE` from hwsync and delay, and
a hwsync-then-delay sequence leaves it exactly in place. -/
theorem xrun_sticky_epipe_witness :
    snd_pcm_dsnoop_hwsync pcm_w shm_w dsnoop_xrun_w 9 tv_w = (dsnoop_xrun_w, -EPIPE)
    ∧ snd_pcm_dsnoop_delay pcm_w shm_w dsnoop_xrun_w 9 tv_w
        = (dsnoop_xrun_w, -EPIPE, none)
    ∧ runSyncCalls pcm_w shm_w dsnoop_xrun_w
        [.hwsync_call 9 tv_w, .delay_call 11 tv_w] = dsnoop_xrun_w
    ∧ (runSyncCalls pcm_w shm_w dsnoop_xrun_w
        [.hwsync_call 9 tv_w, .delay_call 11 tv_w]).state = .XRUN
    ∧ (runSyncCalls pcm_w shm_w dsnoop_xrun_w
        [.hwsync_call 9 tv_w, .delay_call 11 tv_w]).appl_ptr
        = dsnoop_xrun_w.appl_ptr :=
  xrun_sticky_epipe pcm_w shm_w dsnoop_xrun_w 9 tv_w
    [.hwsync_call 9 tv_w, .delay_call 11 tv_w] rfl

/-- C7: `avail_max` tracks the high-water mark of the unread count across
sync calls (on a no-overrun sync it becomes `max` of the stored value and
the fresh count); a status query reports `max(current avail, stored
avail_max)` and zeroes the stored value, so a second status query with no
intervening sync reports only the current avail — the high-water mark is
reported once. -/
theorem avail_max_highwater_status (pcm : snd_pcm_t) (shm : slave_shm_t)
    (d : snd_pcm_direct_t) (tv : timeval_t) (h : Nat)
    (hB : shm.boundary ≤ 2 ^ 62) (hpB : pcm.boundary ≤ 2 ^ 62)
    (hs : d.slave_hw_ptr < shm.boundary) (hhw : d.hw_ptr < pcm.boundary)
    (hh : h < shm.boundary) (hne : h ≠ d.slave_hw_ptr)
    (hstop : pcm.stop_threshold < pcm.boundary)
    (hav : snd_pcm_mmap_capture_hw_avail pcm
        ((d.hw_ptr + syncDelta shm d.slave_hw_ptr h) % pcm.boundary) d.appl_ptr
        < pcm.stop_threshold) :
    (snd_pcm_dsnoop_sync_ptr pcm shm d h tv).1.avail_max
        = max d.avail_max (snd_pcm_mmap_capture_hw_avail pcm
            ((d.hw_ptr + syncDelta shm d.slave_hw_ptr h) % pcm.boundary) d.appl_ptr)
    ∧ (snd_pcm_dsnoop_status pcm d).2.avail
        = snd_pcm_mmap_capture_avail pcm d.hw_ptr d.appl_ptr
    ∧ (snd_pcm_dsnoop_status pcm d).2.avail_max
        = max (snd_pcm_mmap_capture_avail pcm d.hw_ptr d.appl_ptr) d.avail_max
    ∧ (snd_pcm_dsnoop_status pcm d).1.avail_max = 0
    ∧ (snd_pcm_dsnoop_status pcm (snd_pcm_dsnoop_status pcm d).1).2.avail_max
        = snd_pcm_mmap_capture_avail pcm d.hw_ptr d.appl_ptr := by
  refine ⟨?_, rfl, ?_, rfl, ?_⟩
  · rw [snd_pcm_dsnoop_sync_ptr_eq pcm shm d h tv hB hpB hs hh hhw, if_neg hne]
    simp only []
    rw [if_neg (show ¬ pcm.boundary ≤ pcm.stop_threshold by omega),
      if_neg (show ¬ pcm.stop_threshold ≤ snd_pcm_mmap_capture_hw_avail pcm
          ((d.hw_ptr + syncDelta shm d.slave_hw_ptr h) % pcm.boundary) d.appl_ptr
        by omega)]
    split_ifs <;> simp <;> omega
  · simp only [snd_pcm_dsnoop_status]
    split_ifs <;> omega
  · simp only [snd_pcm_dsnoop_status]
    split_ifs <;> omega

/-- Witness for C7: with 5 frames freshly unread and nothing stored, sync
stores `avail_max = 5`; on `dsnoop_xrun_w` (current avail 10, stored 10) a
status query reports 10 and clears the store, and an immediate second query
reports only the current avail 10 (computed afresh, not the old store). -/
theorem avail_max_highwater_status_witness :
    (snd_pcm_dsnoop_sync_ptr pcm_w shm_w dsnoop_zero_w 5 tv_w).1.avail_max = 5
    ∧ (snd_pcm_dsnoop_status pcm_w dsnoop_xrun_w).2.avail = 10
    ∧ (snd_pcm_dsnoop_status pcm_w dsnoop_xrun_w).2.avail_max = 10
    ∧ (snd_pcm_dsnoop_status pcm_w dsnoop_xrun_w).1.avail_max = 0
    ∧ (snd_pcm_dsnoop_status pcm_w
        (snd_pcm_dsnoop_status pcm_w dsnoop_xrun_w).1).2.avail_max = 10 := by
  have h1 := (avail_max_highwater_status pcm_w shm_w dsnoop_zero_w tv_w 5
    (by decide) (by decide) (by decide) (by decide) (by decide) (by decide)
    (by decide) (by decide)).1
  have h2 := avail_max_highwater_status pcm_w shm_w dsnoop_xrun_w tv_w 20
    (by decide) (by decide) (by decide) (by decide) (by decide) (by decide)
    (by decide) (by decide)
  refine ⟨by rw [h1]; decide, by rw [h2.2.1]; decide, by rw [h2.2.2.1]; decide,
    h2.2.2.2.1, by rw [h2.2.2.2.2]; decide⟩

/-- C8: dsnoop is capture-only; for every per-client state and every buffer
argument the write entry points fail with `-ENODEV` and modify nothing. -/
theorem write_ops_enodev (d : snd_pcm_direct_t) (buf : List Int)
    (bufs : List (List Int)) (size n : Nat) :
    snd_pcm_dsnoop_writei d buf size = (d, -ENODEV)
    ∧ snd_pcm_dsnoop_writen d bufs n = (d, -ENODEV) :=
  ⟨rfl, rfl⟩

/-- C9: prepare succeeds unconditionally from every state — there is no
state-legality check — returning 0, setting the state to Prepared and
resetting both `hw_ptr` and `appl_ptr` to 0, all other fields untouched. -/
theorem prepare_unconditional (d : snd_pcm_direct_t) :
    snd_pcm_dsnoop_prepare d
        = ({ d with state := .PREPARED, appl_ptr := 0, hw_ptr := 0 }, 0)
    ∧ (snd_pcm_dsnoop_prepare d).1.state = .PREPARED
    ∧ (snd_pcm_dsnoop_prepare d).1.hw_ptr = 0
    ∧ (snd_pcm_dsnoop_prepare d).1.appl_ptr = 0
    ∧ (snd_pcm_dsnoop_prepare d).2 = 0 :=
  ⟨rfl, rfl, rfl, rfl, rfl⟩

/-- Every return of the drain loop other than the non-blocking `-EAGAIN`
return carries the restored saved stop threshold. -/
lemma drain_loop_restores (pcm : snd_pcm_t) (shm : slave_shm_t) (st : Nat) :
    ∀ (reads : List (Nat × timeval_t)) (d : snd_pcm_direct_t)
      (p : snd_pcm_t) (d2 : snd_pcm_direct_t) (c : Int),
      snd_pcm_dsnoop_drain_loop pcm shm st d reads = .ret p d2 c →
      c ≠ -EAGAIN → p.stop_threshold = st := by
  intro reads
  induction reads with
  | nil =>
    intro d p d2 c hret hc
    unfold snd_pcm_dsnoop_drain_loop at hret
    split_ifs at hret
    all_goals injection hret with hp hd hcc
    all_goals subst hp; rfl
  | cons rt rest ih =>
    obtain ⟨hh, htv⟩ := rt
    intro d p d2 c hret hc
    simp only [snd_pcm_dsnoop_drain_loop] at hret
    split_ifs at hret
    all_goals
      first
        | exact ih _ _ _ _ hret hc
        | (injection hret with hp hd hcc;
            first
              | exact absurd hcc.symm hc
              | (subst hp; rfl))

/-- C10: drain called in non-blocking mode while Running, with the first
sync succeeding, returns `-EAGAIN` with `stop_threshold` left clamped to
`min(entry stop_threshold, buffer_size)` instead of restored; on every
other return path of drain the entry `stop_threshold` is restored in the
returned parameters. -/
theorem drain_nonblock_stop_threshold (pcm : snd_pcm_t) (shm : slave_shm_t)
    (d : snd_pcm_direct_t) :
    (∀ (h : Nat) (tv : timeval_t) (rest : List (Nat × timeval_t)),
      d.state = .RUNNING → pcm.nonblock = true →
      ¬ (snd_pcm_dsnoop_sync_ptr (drain_clamp pcm) shm d h tv).2 < 0 →
      snd_pcm_dsnoop_drain pcm shm d ((h, tv) :: rest)
          = .ret (drain_clamp pcm)
              (snd_pcm_dsnoop_sync_ptr (drain_clamp pcm) shm d h tv).1 (-EAGAIN)
        ∧ (drain_clamp pcm).stop_threshold
          = min pcm.stop_threshold pcm.buffer_size)
    ∧ (∀ (reads : List (Nat × timeval_t)) (p : snd_pcm_t)
        (d2 : snd_pcm_direct_t) (c : Int),
        snd_pcm_dsnoop_drain pcm shm d reads = .ret p d2 c →
        c ≠ -EAGAIN → p.stop_threshold = pcm.stop_threshold) := by
  constructor
  · intro h tv rest hrun hnb hsync
    constructor
    · have hno : ¬ d.state = .OPEN := by rw [hrun]; intro hcon; cases hcon
      have hnb' : (drain_clamp pcm).nonblock = true := by
        unfold drain_clamp; split_ifs <;> exact hnb
      simp only [snd_pcm_dsnoop_drain, if_neg hno,
        snd_pcm_dsnoop_drain_loop, if_pos hrun]
      rw [if_neg hsync, if_pos hnb']
    · unfold drain_clamp
      split_ifs <;> simp <;> omega
  · intro reads p d2 c hret hc
    unfold snd_pcm_dsnoop_drain at hret
    split_ifs at hret
    · injection hret with hp hd hcc
      subst hp; rfl
    · exact drain_loop_restores (drain_clamp pcm) shm pcm.stop_threshold
        reads d p d2 c hret hc

/-- Witness for C10: in non-blocking mode with entry stop threshold 20 and
buffer 8, a drain whose first sync advances 1 frame returns `-EAGAIN` and
leaves the stop threshold clamped at `min 20 8 = 8`. -/
theorem drain_nonblock_stop_threshold_witness :
    snd_pcm_dsnoop_drain pcm_nb_w shm_w dsnoop_w [(4, tv_w)]
        = .ret (drain_clamp pcm_nb_w)
            (snd_pcm_dsnoop_sync_ptr (drain_clamp pcm_nb_w) shm_w dsnoop_w 4 tv_w).1
            (-EAGAIN)
    ∧ (drain_clamp pcm_nb_w).stop_threshold
        = min pcm_nb_w.stop_threshold pcm_nb_w.buffer_size
    ∧ (drain_clamp pcm_nb_w).stop_threshold = 8 := by
  obtain ⟨h1, h2⟩ := (drain_nonblock_stop_threshold pcm_nb_w shm_w dsnoop_w).1
    4 tv_w [] (by decide) (by decide) (by decide)
  exact ⟨h1, h2, by decide⟩

end Dsnoop
